import Mathlib

/-!
# Potato-Token NEP-141 fungible token: verification of the specification

Shallow embedding of the fungible-token contract in `src/ft/src/lib.rs`.
The contract itself is a thin composition: it derives its core ledger
operations from `near_contract_standards::impl_fungible_token_core!` and its
storage-registration operations from
`near_contract_standards::impl_fungible_token_storage!` (lines 87-88), whose
bodies live in the delegated standards library rather than in this
repository.  Those delegated operations are therefore modelled from the
specification (sections 4.2-4.4, 6 and 7 of spec.md); each such definition
carries a doc comment saying so.  The initialization function `new`
(lines 60-76), the `PanicOnDefault` derive (line 28) and the metadata
structure are embedded from the source.

Machine integers: balances and the total supply are NEAR `u128` values;
they are embedded as `Nat` with explicit bound checks against
`2 ^ 128 - 1`, because the library arithmetic is checked (fails, never
wraps).  A failing operation returns `Except.error` carrying no state: in
the NEAR execution model a panic aborts the transaction and reverts every
tentative state change, so the pre-state is the state after a failure.
-/

namespace PotatoToken

/-- Account identifiers are opaque strings (NEAR `AccountId`). -/
abbrev AccountId := String

/-- The largest value representable in a `u128`: `2 ^ 128 - 1`. -/
def U128_MAX : Nat := 2 ^ 128 - 1

/-- The failure modes of the public operations, from the error taxonomy of
the specification (section 7 and the operation table in section 6). -/
inductive FTError where
  | SelfTransfer
  | ZeroAmount
  | AccountNotRegistered
  | InsufficientBalance
  | NonZeroBalance
  | InsufficientStorageDeposit
  | InsufficientAvailableBalance
  | Overflow
  | AlreadyInitialized
  | InvalidMetadata
deriving DecidableEq, Repr

/-- The balance map of the ledger, as an association list from account id to
balance.  An account is registered exactly when it has an entry.  This embeds
the `accounts: LookupMap<AccountId, Balance>` field of the library
`FungibleToken` struct held in the `token` field of `Contract`. -/
abbrev Accounts := List (AccountId × Nat)

/-- Look up the balance of `a`, returning `none` when `a` is not
registered. -/
def lookupAcc : Accounts → AccountId → Option Nat
  | [], _ => none
  | (k, v) :: rest, a => if k = a then some v else lookupAcc rest a

/-- Overwrite the balance of an existing account `a` with `v`; the list is
unchanged when `a` has no entry. -/
def setAcc : Accounts → AccountId → Nat → Accounts
  | [], _, _ => []
  | (k, w) :: rest, a, v =>
    if k = a then (k, v) :: rest else (k, w) :: setAcc rest a v

/-- Remove the entry of account `a`. -/
def removeAcc : Accounts → AccountId → Accounts
  | [], _ => []
  | (k, w) :: rest, a => if k = a then rest else (k, w) :: removeAcc rest a

/-- The sum of all balances held in the map. -/
def sumAcc (l : Accounts) : Nat := (l.map Prod.snd).sum

/-- The ledger state of the `FungibleToken` struct: the balance map and the
running total supply. -/
structure FungibleToken where
  accounts : Accounts
  total_supply : Nat
deriving DecidableEq, Repr

/-- The sum of the balances of all registered accounts of the ledger. -/
def sumBalances (t : FungibleToken) : Nat := sumAcc t.accounts

/-- `ft_total_supply` view method: the current total supply
(`impl_fungible_token_core!`, delegated; section 6 of the spec). -/
def ft_total_supply (t : FungibleToken) : Nat := t.total_supply

/-- `ft_balance_of` view method: the balance of `a`, `0` when `a` is
unregistered (`impl_fungible_token_core!`, delegated; section 6). -/
def ft_balance_of (t : FungibleToken) (a : AccountId) : Nat :=
  (lookupAcc t.accounts a).getD 0

/-- Modelled from the spec: `deposit(account, amount)` of the delegated
library ledger (section 4.3) — the body of `internal_deposit` is in
`near_contract_standards`, not in this repository.  Fails with
`AccountNotRegistered` if the account is absent; fails with `Overflow` if
`balance + amount` or `total_supply + amount` would exceed the 128-bit
range; otherwise increments both. -/
def internal_deposit (t : FungibleToken) (a : AccountId) (amount : Nat) :
    Except FTError FungibleToken :=
  match lookupAcc t.accounts a with
  | none => .error .AccountNotRegistered
  | some b =>
    if U128_MAX < b + amount then .error .Overflow
    else if U128_MAX < t.total_supply + amount then .error .Overflow
    else .ok { accounts := setAcc t.accounts a (b + amount),
               total_supply := t.total_supply + amount }

/-- Modelled from the spec: `withdraw(account, amount)` of the delegated
library ledger (section 4.3) — the body of `internal_withdraw` is in
`near_contract_standards`, not in this repository.  Fails with
`AccountNotRegistered` if absent, `InsufficientBalance` if
`amount > balance`, and `Overflow` (underflow of the 128-bit counter,
section 7) if `amount > total_supply`; otherwise decrements the balance and
the total supply. -/
def internal_withdraw (t : FungibleToken) (a : AccountId) (amount : Nat) :
    Except FTError FungibleToken :=
  match lookupAcc t.accounts a with
  | none => .error .AccountNotRegistered
  | some b =>
    if b < amount then .error .InsufficientBalance
    else if t.total_supply < amount then .error .Overflow
    else .ok { accounts := setAcc t.accounts a (b - amount),
               total_supply := t.total_supply - amount }

/-- Modelled from the spec: `transfer(sender, receiver, amount, memo)` of the
delegated library ledger (section 4.3) — the body of `internal_transfer`
behind `impl_fungible_token_core!` is in `near_contract_standards`, not in
this repository.  Fails with `SelfTransfer` if `sender = receiver`, with
`ZeroAmount` if `amount = 0`; then withdraws from the sender
(`AccountNotRegistered` / `InsufficientBalance`) and deposits to the
receiver (`AccountNotRegistered` / `Overflow`).  On success the total
supply is unchanged (the withdraw decrement cancels the deposit
increment).  The memo only feeds the emitted event. -/
def internal_transfer (t : FungibleToken) (sender receiver : AccountId)
    (amount : Nat) (_memo : Option String) : Except FTError FungibleToken :=
  if sender = receiver then .error .SelfTransfer
  else if amount = 0 then .error .ZeroAmount
  else
    match internal_withdraw t sender amount with
    | .error e => .error e
    | .ok t1 => internal_deposit t1 receiver amount

/-- Modelled from the spec: the unused amount of a transfer-with-notify
resolution (section 4.4).  A failed or panicked hook call is treated as the
full amount unused; a reported unused amount is capped at the transferred
amount. -/
def unusedOf (amount : Nat) : Option Nat → Nat
  | some u => min amount u
  | none => amount

/-- The reversal step of the resolution, for a known unused amount.  When
nothing is unused the state is untouched.  Otherwise the clawback
`refund = min unused (receiver balance)` is re-debited from the receiver
(an unregistered receiver holds nothing, so nothing is clawed back) and
re-credited to the sender; when the sender entry has meanwhile been removed
the clawback is burned from the total supply so conservation still holds.
The second component is the amount finally transferred, `amount - unused`. -/
def resolveCore (t : FungibleToken) (sender receiver : AccountId)
    (amount unused : Nat) : FungibleToken × Nat :=
  if unused = 0 then (t, amount)
  else
    match lookupAcc t.accounts receiver with
    | none => (t, amount - unused)
    | some rb =>
      match lookupAcc (setAcc t.accounts receiver (rb - min unused rb)) sender with
      | some sb =>
        ({ accounts := setAcc (setAcc t.accounts receiver (rb - min unused rb))
             sender (sb + min unused rb),
           total_supply := t.total_supply }, amount - unused)
      | none =>
        ({ accounts := setAcc t.accounts receiver (rb - min unused rb),
           total_supply := t.total_supply - min unused rb }, amount - unused)

/-- Modelled from the spec: resolution of a transfer-with-notification
(section 4.4, `Resolved`) — the body of `ft_resolve_transfer` behind
`impl_fungible_token_core!` is in `near_contract_standards`, not in this
repository.  `hookResult` is `some u` when the receiver hook reported `u`
tokens unused and `none` when the hook call failed or panicked (treated as
the full amount unused, the maximally conservative choice of section 4.4).
The reversal, `resolveCore`, re-debits the receiver and re-credits the
sender by `min unused (receiver balance)`: the clawback is capped at the
current receiver balance so the reversal itself cannot fail, and any
residual loss is absorbed.  Returns the new state and the amount finally
transferred, `amount - unused`. -/
def ft_resolve_transfer (t : FungibleToken) (sender receiver : AccountId)
    (amount : Nat) (hookResult : Option Nat) : FungibleToken × Nat :=
  resolveCore t sender receiver amount (unusedOf amount hookResult)

/-! ## Storage management

The registration lifecycle behind `impl_fungible_token_storage!`
(line 88 of `lib.rs`): its bodies live in `near_contract_standards`,
so they are modelled from sections 4.2 and 6 of the spec.  Registration
is exactly having an entry in the balance map; every registered account
stakes exactly the minimum bound (section 3, StorageStake). -/

/-- The per-byte storage cost of the execution environment, in the native
value unit (an opaque positive environment constant). -/
def storage_byte_cost : Nat := 10000000000000000000

/-- The storage footprint in bytes of one account entry (an opaque positive
environment measurement taken at initialization). -/
def account_storage_usage : Nat := 125

/-- The minimum storage stake required to register an account:
`account_storage_usage * storage_byte_cost` (section 4.2,
`balance_bounds`). -/
def min_bound : Nat := account_storage_usage * storage_byte_cost

/-- The `{total, available}` record returned by the storage operations. -/
structure StorageBalance where
  total : Nat
  available : Nat
deriving DecidableEq, Repr

/-- The `{min, max}` record of `storage_balance_bounds`. -/
structure StorageBalanceBounds where
  min : Nat
  max : Option Nat
deriving DecidableEq, Repr

/-- Modelled from the spec: `storage_balance_bounds` (sections 4.2 and 6);
the stake is pinned to the minimum, so the maximum equals the minimum. -/
def storage_balance_bounds : StorageBalanceBounds :=
  { min := min_bound, max := some min_bound }

/-- Modelled from the spec: the `{total, available}` stake of a registered
account.  The stake always equals the minimum bound exactly (section 3),
so the available portion is zero. -/
def storage_balance_of (t : FungibleToken) (a : AccountId) :
    Option StorageBalance :=
  match lookupAcc t.accounts a with
  | some _ => some { total := min_bound, available := 0 }
  | none => none

/-- Modelled from the spec: `register(account, attached_value)` /
`storage_deposit` (section 4.2) — the body is in
`near_contract_standards`, not in this repository.  Returns the new state,
the refund issued to the caller, and the result.  Idempotent-safe: if the
account is already registered the entire attached value is refunded and the
current stake is returned, with no state change.  Otherwise the attached
value must cover `min_bound`: on success the account is created with zero
balance and `attached - min_bound` is refunded; on failure
(`InsufficientStorageDeposit`) the entire attached value is refunded and
the registry is unchanged. -/
def storage_deposit (t : FungibleToken) (a : AccountId) (attached : Nat) :
    FungibleToken × Nat × Except FTError StorageBalance :=
  match lookupAcc t.accounts a with
  | some _ => (t, attached, .ok { total := min_bound, available := 0 })
  | none =>
    if attached < min_bound then
      (t, attached, .error .InsufficientStorageDeposit)
    else
      ({ t with accounts := (a, 0) :: t.accounts },
       attached - min_bound,
       .ok { total := min_bound, available := 0 })

/-- Modelled from the spec: `storage_withdraw(amount?)` (section 6) — the
body is in `near_contract_standards`, not in this repository.  Returns the
new state, the amount paid out, and the result.  Only stake above the
minimum bound is withdrawable, which is always zero by design: a positive
request fails with `InsufficientAvailableBalance`, a zero or absent request
returns the current `{total, available}` record, and no call ever pays out
a nonzero amount. -/
def storage_withdraw (t : FungibleToken) (a : AccountId)
    (request : Option Nat) : FungibleToken × Nat × Except FTError StorageBalance :=
  match lookupAcc t.accounts a with
  | none => (t, 0, .error .AccountNotRegistered)
  | some _ =>
    match request with
    | some amount =>
      if 0 < amount then (t, 0, .error .InsufficientAvailableBalance)
      else (t, 0, .ok { total := min_bound, available := 0 })
    | none => (t, 0, .ok { total := min_bound, available := 0 })

/-- Modelled from the spec: `unregister(account, force)` /
`storage_unregister` (section 4.2) — the body is in
`near_contract_standards`, not in this repository; the host hook
`on_account_closed` (lines 78-80 of `lib.rs`) only logs.  Returns the new
state, the refund issued to the caller, and the result.  Fails with
`AccountNotRegistered` if absent; with `NonZeroBalance` if the balance is
nonzero and `force` is false (state unchanged).  Otherwise the balance is
burned first (total supply decremented) when nonzero, the entry is removed,
the staked `min_bound` is refunded, and `true` (removal happened) is
returned. -/
def storage_unregister (t : FungibleToken) (a : AccountId) (force : Bool) :
    FungibleToken × Nat × Except FTError Bool :=
  match lookupAcc t.accounts a with
  | none => (t, 0, .error .AccountNotRegistered)
  | some b =>
    if b ≠ 0 ∧ force = false then (t, 0, .error .NonZeroBalance)
    else
      ({ accounts := removeAcc t.accounts a,
         total_supply := t.total_supply - b },
       min_bound, .ok true)

/-! ## Metadata and contract initialization (from the source) -/

/-- The `FungibleTokenMetadata` record (fields as used at lines 45-53 of
`lib.rs`). -/
structure FungibleTokenMetadata where
  spec : String
  name : String
  symbol : String
  icon : Option String
  reference : Option String
  reference_hash : Option String
  decimals : Nat
deriving DecidableEq, Repr

/-- Modelled from the spec: the validity check `metadata.assert_valid()`
called at line 62 of `lib.rs` — its body is in `near_contract_standards`,
not in this repository.  Section 3 of the spec: spec string present,
non-empty name and symbol, reference and reference-hash both present or
both absent. -/
def metadataValid (m : FungibleTokenMetadata) : Bool :=
  m.spec ≠ "" && m.name ≠ "" && m.symbol ≠ "" &&
    (m.reference.isSome == m.reference_hash.isSome)

/-- The contract state: the token ledger and the metadata blob
(lines 29-32 of `lib.rs`). -/
structure Contract where
  token : FungibleToken
  metadata : FungibleTokenMetadata
deriving DecidableEq, Repr

/-- `Contract::new` (lines 60-76 of `lib.rs`): fails if state already
exists (`assert!(!env::state_exists(), "Already initialized")`), validates
the metadata, creates an empty ledger, registers the owner and deposits the
whole initial supply into the owner account (`internal_register_account`
then `internal_deposit`); the mint event is emitted.  `stateExists` embeds
the `env::state_exists()` oracle. -/
def Contract.new (stateExists : Bool) (owner_id : AccountId)
    (total_supply : Nat) (metadata : FungibleTokenMetadata) :
    Except FTError Contract :=
  if stateExists then .error .AlreadyInitialized
  else if metadataValid metadata = false then .error .InvalidMetadata
  else
    match internal_deposit { accounts := [(owner_id, 0)], total_supply := 0 }
        owner_id total_supply with
    | .error e => .error e
    | .ok t2 => .ok { token := t2, metadata := metadata }

/-- The `PanicOnDefault` derive on `Contract` (line 28 of `lib.rs`):
constructing the default state panics with the message
"The contract is not initialized" (the message the test `test_default`,
lines 126-132, expects). -/
def Contract.defaultState : Except String Contract :=
  .error "The contract is not initialized"

/-- The entry-point dispatch of `near_bindgen`: a public method first loads
the contract state; when no state has been stored yet it falls back to
`Contract.defaultState`, so the method body `f` is never reached before
initialization. -/
def dispatch (state : Option Contract) (f : Contract → Contract) :
    Except String Contract :=
  match state with
  | some c => .ok (f c)
  | none => Contract.defaultState.map f

/-! ## Operation sequences -/

/-- A public ledger operation, for stating properties over sequences of
operations (section 8 of the spec: register, deposit/mint, transfer,
transfer-with-notify resolution, burn/withdraw, unregister). -/
inductive Op where
  | deposit (a : AccountId) (amount : Nat)
  | withdraw (a : AccountId) (amount : Nat)
  | transfer (sender receiver : AccountId) (amount : Nat) (memo : Option String)
  | transferCallResolve (sender receiver : AccountId) (amount : Nat)
      (memo : Option String) (hookResult : Option Nat)
  | register (a : AccountId) (attached : Nat)
  | unregister (a : AccountId) (force : Bool)
  | storageWithdraw (a : AccountId) (request : Option Nat)
deriving DecidableEq, Repr

/-- Apply one public operation to the ledger; `transferCallResolve` runs the
full transfer-with-notify cycle (optimistic transfer, then resolution with
the hook result). -/
def applyOp (t : FungibleToken) : Op → Except FTError FungibleToken
  | .deposit a amount => internal_deposit t a amount
  | .withdraw a amount => internal_withdraw t a amount
  | .transfer s r amount memo => internal_transfer t s r amount memo
  | .transferCallResolve s r amount memo hookResult =>
    match internal_transfer t s r amount memo with
    | .error e => .error e
    | .ok t1 => .ok (ft_resolve_transfer t1 s r amount hookResult).1
  | .register a attached =>
    match storage_deposit t a attached with
    | (t1, _, .ok _) => .ok t1
    | (_, _, .error e) => .error e
  | .unregister a force =>
    match storage_unregister t a force with
    | (t1, _, .ok _) => .ok t1
    | (_, _, .error e) => .error e
  | .storageWithdraw a request =>
    match storage_withdraw t a request with
    | (t1, _, .ok _) => .ok t1
    | (_, _, .error e) => .error e

/-- Run a sequence of operations, failing at the first failing operation:
a run that returns `ok` is a sequence of successful operations. -/
def runOps (t : FungibleToken) : List Op → Except FTError FungibleToken
  | [] => .ok t
  | op :: ops =>
    match applyOp t op with
    | .error e => .error e
    | .ok t1 => runOps t1 ops

/-! ## Association-list lemmas -/

theorem sumAcc_cons (k : AccountId) (v : Nat) (l : Accounts) :
    sumAcc ((k, v) :: l) = v + sumAcc l := by
  simp [sumAcc]

theorem lookupAcc_le_sum {l : Accounts} {a : AccountId} {b : Nat}
    (h : lookupAcc l a = some b) : b ≤ sumAcc l := by
  induction l with
  | nil => simp [lookupAcc] at h
  | cons hd tl ih =>
    obtain ⟨k, v⟩ := hd
    rw [lookupAcc] at h
    rw [sumAcc_cons]
    by_cases hk : k = a
    · rw [if_pos hk] at h
      cases h
      omega
    · rw [if_neg hk] at h
      have := ih h
      omega

theorem sumAcc_setAcc {l : Accounts} {a : AccountId} {b : Nat} (v : Nat)
    (h : lookupAcc l a = some b) :
    sumAcc (setAcc l a v) + b = sumAcc l + v := by
  induction l with
  | nil => simp [lookupAcc] at h
  | cons hd tl ih =>
    obtain ⟨k, w⟩ := hd
    rw [lookupAcc] at h
    rw [setAcc]
    by_cases hk : k = a
    · rw [if_pos hk] at h
      cases h
      rw [if_pos hk, sumAcc_cons, sumAcc_cons]
      omega
    · rw [if_neg hk] at h
      rw [if_neg hk, sumAcc_cons, sumAcc_cons]
      have := ih h
      omega

theorem lookupAcc_setAcc_self {l : Accounts} {a : AccountId} {b : Nat}
    (v : Nat) (h : lookupAcc l a = some b) :
    lookupAcc (setAcc l a v) a = some v := by
  induction l with
  | nil => simp [lookupAcc] at h
  | cons hd tl ih =>
    obtain ⟨k, w⟩ := hd
    rw [lookupAcc] at h
    rw [setAcc]
    by_cases hk : k = a
    · rw [if_pos hk, lookupAcc, if_pos hk]
    · rw [if_neg hk] at h
      rw [if_neg hk, lookupAcc, if_neg hk]
      exact ih h

theorem lookupAcc_setAcc_ne {l : Accounts} {a x : AccountId} (v : Nat)
    (h : a ≠ x) : lookupAcc (setAcc l a v) x = lookupAcc l x := by
  induction l with
  | nil => rfl
  | cons hd tl ih =>
    obtain ⟨k, w⟩ := hd
    rw [setAcc]
    by_cases hk : k = a
    · rw [if_pos hk, lookupAcc, lookupAcc]
      rw [if_neg (hk ▸ h), if_neg (hk ▸ h)]
    · rw [if_neg hk, lookupAcc, lookupAcc]
      by_cases hx : k = x
      · rw [if_pos hx, if_pos hx]
      · rw [if_neg hx, if_neg hx]
        exact ih

theorem setAcc_of_lookup_none {l : Accounts} {a : AccountId} (v : Nat)
    (h : lookupAcc l a = none) : setAcc l a v = l := by
  induction l with
  | nil => rfl
  | cons hd tl ih =>
    obtain ⟨k, w⟩ := hd
    rw [lookupAcc] at h
    rw [setAcc]
    by_cases hk : k = a
    · rw [if_pos hk] at h
      cases h
    · rw [if_neg hk] at h
      rw [if_neg hk, ih h]

theorem setAcc_of_lookup_self {l : Accounts} {a : AccountId} {v : Nat}
    (h : lookupAcc l a = some v) : setAcc l a v = l := by
  induction l with
  | nil => rfl
  | cons hd tl ih =>
    obtain ⟨k, w⟩ := hd
    rw [lookupAcc] at h
    rw [setAcc]
    by_cases hk : k = a
    · rw [if_pos hk] at h
      cases h
      rw [if_pos hk]
    · rw [if_neg hk] at h
      rw [if_neg hk, ih h]

theorem setAcc_setAcc_same (l : Accounts) (a : AccountId) (v w : Nat) :
    setAcc (setAcc l a v) a w = setAcc l a w := by
  induction l with
  | nil => rfl
  | cons hd tl ih =>
    obtain ⟨k, u⟩ := hd
    rw [setAcc]
    by_cases hk : k = a
    · rw [if_pos hk, setAcc, if_pos hk, setAcc, if_pos hk]
    · rw [if_neg hk, setAcc, if_neg hk, setAcc, if_neg hk, ih]

theorem setAcc_comm {a b : AccountId} (l : Accounts) (v w : Nat)
    (h : a ≠ b) :
    setAcc (setAcc l a v) b w = setAcc (setAcc l b w) a v := by
  induction l with
  | nil => rfl
  | cons hd tl ih =>
    obtain ⟨k, u⟩ := hd
    by_cases hka : k = a
    · have hkb : ¬ k = b := fun hb => h (hka ▸ hb ▸ rfl)
      rw [setAcc, if_pos hka, setAcc, if_neg hkb, setAcc, if_neg hkb,
        setAcc, if_pos hka]
    · by_cases hkb : k = b
      · rw [setAcc, if_neg hka, setAcc, if_pos hkb, setAcc, if_pos hkb,
          setAcc, if_neg hka]
      · rw [setAcc, if_neg hka, setAcc, if_neg hkb, setAcc, if_neg hkb,
          setAcc, if_neg hka, ih]

theorem pair_le_sum {l : Accounts} {s r : AccountId} {bs br : Nat}
    (hne : s ≠ r) (hs : lookupAcc l s = some bs)
    (hr : lookupAcc l r = some br) : bs + br ≤ sumAcc l := by
  induction l with
  | nil => simp [lookupAcc] at hs
  | cons hd tl ih =>
    obtain ⟨k, v⟩ := hd
    rw [lookupAcc] at hs hr
    rw [sumAcc_cons]
    by_cases hks : k = s
    · rw [if_pos hks] at hs
      cases hs
      have hkr : ¬ k = r := fun hkr => hne (hks ▸ hkr ▸ rfl)
      rw [if_neg hkr] at hr
      have := lookupAcc_le_sum hr
      omega
    · rw [if_neg hks] at hs
      by_cases hkr : k = r
      · rw [if_pos hkr] at hr
        cases hr
        have := lookupAcc_le_sum hs
        omega
      · rw [if_neg hkr] at hr
        have := ih hs hr
        omega

theorem sumAcc_removeAcc {l : Accounts} {a : AccountId} {b : Nat}
    (h : lookupAcc l a = some b) :
    sumAcc (removeAcc l a) + b = sumAcc l := by
  induction l with
  | nil => simp [lookupAcc] at h
  | cons hd tl ih =>
    obtain ⟨k, v⟩ := hd
    rw [lookupAcc] at h
    rw [removeAcc]
    by_cases hk : k = a
    · rw [if_pos hk] at h
      cases h
      rw [if_pos hk, sumAcc_cons]
      omega
    · rw [if_neg hk] at h
      rw [if_neg hk, sumAcc_cons, sumAcc_cons]
      have := ih h
      omega

/-! ## The well-formedness invariant -/

/-- The state invariant of the ledger: conservation (the total supply
equals the sum of the balances of all registered accounts, section 8 of
the spec) together with the 128-bit bound on the total supply. -/
def wf (t : FungibleToken) : Prop :=
  t.total_supply = sumBalances t ∧ t.total_supply ≤ U128_MAX


theorem wf_internal_deposit {t t1 : FungibleToken} {a : AccountId}
    {amount : Nat} (hwf : wf t)
    (h : internal_deposit t a amount = .ok t1) : wf t1 := by
  obtain ⟨hc, hb⟩ := hwf
  unfold internal_deposit at h
  split at h
  · cases h
  next b hl =>
    split at h
    · cases h
    next h1 =>
      split at h
      · cases h
      next h2 =>
        cases h
        have hs := sumAcc_setAcc (b + amount) hl
        simp only [wf, sumBalances] at hc ⊢
        omega

theorem wf_internal_withdraw {t t1 : FungibleToken} {a : AccountId}
    {amount : Nat} (hwf : wf t)
    (h : internal_withdraw t a amount = .ok t1) : wf t1 := by
  obtain ⟨hc, hb⟩ := hwf
  unfold internal_withdraw at h
  split at h
  · cases h
  next b hl =>
    split at h
    · cases h
    next h1 =>
      split at h
      · cases h
      next h2 =>
        cases h
        have hs := sumAcc_setAcc (b - amount) hl
        have hle := lookupAcc_le_sum hl
        simp only [wf, sumBalances] at hc ⊢
        omega

theorem wf_internal_transfer {t t1 : FungibleToken} {s r : AccountId}
    {amount : Nat} {memo : Option String} (hwf : wf t)
    (h : internal_transfer t s r amount memo = .ok t1) : wf t1 := by
  unfold internal_transfer at h
  split at h
  · cases h
  next h1 =>
    split at h
    · cases h
    next h2 =>
      split at h
      next e hw => cases h
      next tmid hw => exact wf_internal_deposit (wf_internal_withdraw hwf hw) h

theorem wf_resolveCore {t t1 : FungibleToken} {s r : AccountId}
    {amount unused ret : Nat} (hwf : wf t)
    (h : resolveCore t s r amount unused = (t1, ret)) : wf t1 := by
  obtain ⟨hc, hb⟩ := hwf
  unfold resolveCore at h
  split at h
  · cases h; exact ⟨hc, hb⟩
  next h0 =>
    split at h
    next hr => cases h; exact ⟨hc, hb⟩
    next rb hr =>
      have h1 := sumAcc_setAcc (rb - min unused rb) hr
      have hrb := lookupAcc_le_sum hr
      have hmin : min unused rb ≤ rb := Nat.min_le_right _ _
      split at h
      next sb hs =>
        cases h
        have h2 := sumAcc_setAcc (sb + min unused rb) hs
        simp only [wf, sumBalances] at hc ⊢
        omega
      next hs =>
        cases h
        simp only [wf, sumBalances] at hc ⊢
        omega

theorem wf_ft_resolve_transfer (t : FungibleToken) (s r : AccountId)
    (amount : Nat) (hookResult : Option Nat) (hwf : wf t) :
    wf (ft_resolve_transfer t s r amount hookResult).1 :=
  wf_resolveCore hwf rfl

theorem wf_storage_deposit {t t1 : FungibleToken} {a : AccountId}
    {attached refund : Nat} {res : Except FTError StorageBalance}
    (hwf : wf t) (h : storage_deposit t a attached = (t1, refund, res)) :
    wf t1 := by
  obtain ⟨hc, hb⟩ := hwf
  unfold storage_deposit at h
  split at h
  next b hl =>
    injection h with h1 h2
    subst h1
    exact ⟨hc, hb⟩
  next hl =>
    split at h
    · injection h with h1 h2
      subst h1
      exact ⟨hc, hb⟩
    · injection h with h1 h2
      subst h1
      simp only [wf, sumBalances, sumAcc_cons] at hc ⊢
      omega

theorem wf_storage_unregister {t t1 : FungibleToken} {a : AccountId}
    {force : Bool} {refund : Nat} {res : Except FTError Bool}
    (hwf : wf t) (h : storage_unregister t a force = (t1, refund, res)) :
    wf t1 := by
  obtain ⟨hc, hb⟩ := hwf
  unfold storage_unregister at h
  split at h
  next hl =>
    injection h with h1 h2
    subst h1
    exact ⟨hc, hb⟩
  next b hl =>
    split at h
    · injection h with h1 h2
      subst h1
      exact ⟨hc, hb⟩
    · injection h with h1 h2
      subst h1
      have h4 := sumAcc_removeAcc hl
      have h5 := lookupAcc_le_sum hl
      simp only [wf, sumBalances] at hc ⊢
      omega

theorem storage_withdraw_state {t t1 : FungibleToken} {a : AccountId}
    {request : Option Nat} {pay : Nat} {res : Except FTError StorageBalance}
    (h : storage_withdraw t a request = (t1, pay, res)) :
    t1 = t ∧ pay = 0 := by
  unfold storage_withdraw at h
  split at h
  · injection h with h1 h2
    injection h2 with h2 h3
    exact ⟨h1.symm, h2.symm⟩
  next b hl =>
    split at h
    next amount =>
      split at h
      · injection h with h1 h2
        injection h2 with h2 h3
        exact ⟨h1.symm, h2.symm⟩
      · injection h with h1 h2
        injection h2 with h2 h3
        exact ⟨h1.symm, h2.symm⟩
    next =>
      injection h with h1 h2
      injection h2 with h2 h3
      exact ⟨h1.symm, h2.symm⟩

theorem wf_applyOp {t t1 : FungibleToken} {op : Op} (hwf : wf t)
    (h : applyOp t op = .ok t1) : wf t1 := by
  cases op with
  | deposit a amount =>
    simp only [applyOp] at h
    exact wf_internal_deposit hwf h
  | withdraw a amount =>
    simp only [applyOp] at h
    exact wf_internal_withdraw hwf h
  | transfer s r amount memo =>
    simp only [applyOp] at h
    exact wf_internal_transfer hwf h
  | transferCallResolve s r amount memo hookResult =>
    simp only [applyOp] at h
    split at h
    · cases h
    next tmid ht =>
      cases h
      exact wf_ft_resolve_transfer tmid s r amount hookResult
        (wf_internal_transfer hwf ht)
  | register a attached =>
    simp only [applyOp] at h
    split at h
    next t2 refund v heq =>
      cases h
      exact wf_storage_deposit hwf heq
    next => cases h
  | unregister a force =>
    simp only [applyOp] at h
    split at h
    next t2 refund v heq =>
      cases h
      exact wf_storage_unregister hwf heq
    next => cases h
  | storageWithdraw a request =>
    simp only [applyOp] at h
    split at h
    next t2 pay v heq =>
      cases h
      cases storage_withdraw_state heq with
      | intro he hp => rw [he]; exact hwf
    next => cases h

theorem internal_withdraw_not_registered {t : FungibleToken} {a : AccountId}
    (amount : Nat) (h : lookupAcc t.accounts a = none) :
    internal_withdraw t a amount = .error .AccountNotRegistered := by
  unfold internal_withdraw
  rw [h]

theorem internal_withdraw_insufficient {t : FungibleToken} {a : AccountId}
    {amount b : Nat} (h : lookupAcc t.accounts a = some b)
    (hlt : b < amount) :
    internal_withdraw t a amount = .error .InsufficientBalance := by
  unfold internal_withdraw
  rw [h]
  simp only [if_pos hlt]

theorem internal_withdraw_ok {t : FungibleToken} {a : AccountId}
    {amount b : Nat} (h : lookupAcc t.accounts a = some b)
    (h1 : amount ≤ b) (h2 : amount ≤ t.total_supply) :
    internal_withdraw t a amount
      = .ok { accounts := setAcc t.accounts a (b - amount),
              total_supply := t.total_supply - amount } := by
  unfold internal_withdraw
  rw [h]
  simp only [if_neg (Nat.not_lt.mpr h1), if_neg (Nat.not_lt.mpr h2)]

theorem internal_deposit_not_registered {t : FungibleToken} {a : AccountId}
    (amount : Nat) (h : lookupAcc t.accounts a = none) :
    internal_deposit t a amount = .error .AccountNotRegistered := by
  unfold internal_deposit
  rw [h]

theorem internal_deposit_ok {t : FungibleToken} {a : AccountId}
    {amount b : Nat} (h : lookupAcc t.accounts a = some b)
    (h1 : b + amount ≤ U128_MAX) (h2 : t.total_supply + amount ≤ U128_MAX) :
    internal_deposit t a amount
      = .ok { accounts := setAcc t.accounts a (b + amount),
              total_supply := t.total_supply + amount } := by
  unfold internal_deposit
  rw [h]
  simp only [if_neg (Nat.not_lt.mpr h1), if_neg (Nat.not_lt.mpr h2)]

theorem internal_transfer_inv {t t1 : FungibleToken} {s r : AccountId}
    {amount : Nat} {memo : Option String}
    (h : internal_transfer t s r amount memo = .ok t1) :
    ∃ bs br, s ≠ r ∧ amount ≠ 0 ∧
      lookupAcc t.accounts s = some bs ∧ amount ≤ bs ∧
      lookupAcc t.accounts r = some br ∧ amount ≤ t.total_supply ∧
      br + amount ≤ U128_MAX ∧
      t1.accounts = setAcc (setAcc t.accounts s (bs - amount)) r (br + amount) ∧
      t1.total_supply = t.total_supply := by
  unfold internal_transfer at h
  split at h
  · cases h
  next h1 =>
    split at h
    · cases h
    next h2 =>
      split at h
      next e hw => cases h
      next tmid hw =>
        unfold internal_withdraw at hw
        split at hw
        · cases hw
        next bs hs =>
          split at hw
          next => cases hw
          next h3 =>
            split at hw
            next => cases hw
            next h4 =>
              cases hw
              unfold internal_deposit at h
              split at h
              · cases h
              next br hr =>
                split at h
                next => cases h
                next h5 =>
                  split at h
                  next => cases h
                  next h6 =>
                    cases h
                    rw [lookupAcc_setAcc_ne _ h1] at hr
                    have h3a := Nat.not_lt.mp h3
                    have h4a := Nat.not_lt.mp h4
                    have h5a := Nat.not_lt.mp h5
                    refine ⟨bs, br, h1, h2, hs, h3a, hr, h4a, h5a, rfl, ?_⟩
                    show t.total_supply - amount + amount = t.total_supply
                    omega

theorem wf_runOps {t t1 : FungibleToken} {ops : List Op} (hwf : wf t)
    (h : runOps t ops = .ok t1) : wf t1 := by
  induction ops generalizing t with
  | nil =>
    unfold runOps at h
    cases h
    exact hwf
  | cons op ops ih =>
    unfold runOps at h
    split at h
    · cases h
    next tmid ha => exact ih (wf_applyOp hwf ha) h

theorem wf_contract_new {stateExists : Bool} {owner : AccountId}
    {supply : Nat} {md : FungibleTokenMetadata} {c : Contract}
    (h : Contract.new stateExists owner supply md = .ok c) :
    wf c.token := by
  unfold Contract.new at h
  split at h
  · cases h
  · split at h
    · cases h
    · split at h
      next e hd => cases h
      next t2 hd =>
        cases h
        have hwf0 : wf { accounts := [(owner, 0)], total_supply := 0 } :=
          ⟨by simp [sumBalances, sumAcc], Nat.zero_le _⟩
        exact wf_internal_deposit hwf0 hd

/-! ## The claims -/

/-- A concrete valid metadata record, matching the default metadata of
`new_default_meta` (lines 41-55 of `lib.rs`) with the icon elided. -/
def mdOK : FungibleTokenMetadata :=
  { spec := "ft-1.0.0", name := "Lights", symbol := "LTS", icon := none,
    reference := none, reference_hash := none, decimals := 0 }

/-- C1: for every sequence of successful public operations (register,
deposit/mint, transfer, transfer-with-notify resolution, burn, unregister)
starting from a freshly initialized ledger, the total supply equals the sum
of the balances of all registered accounts after the sequence completes.
Every prefix of a successful sequence is itself a successful sequence, so
this covers the state after each operation. -/
theorem C1_conservation {stateExists : Bool} {owner : AccountId}
    {supply : Nat} {md : FungibleTokenMetadata} {c : Contract}
    {ops : List Op} {t : FungibleToken}
    (hinit : Contract.new stateExists owner supply md = .ok c)
    (hrun : runOps c.token ops = .ok t) :
    ft_total_supply t = sumBalances t :=
  (wf_runOps (wf_contract_new hinit) hrun).1

theorem C1_conservation_witness :
    ft_total_supply { accounts := [("bob", 300), ("alice", 700)],
                      total_supply := 1000 }
      = sumBalances { accounts := [("bob", 300), ("alice", 700)],
                      total_supply := 1000 } :=
  @C1_conservation false "alice" 1000 mdOK
    { token := { accounts := [("alice", 1000)], total_supply := 1000 },
      metadata := mdOK }
    [.register "bob" min_bound, .transfer "alice" "bob" 300 none]
    { accounts := [("bob", 300), ("alice", 700)], total_supply := 1000 }
    rfl rfl

/-- C2: `transfer` fails with `SelfTransfer` when the sender equals the
receiver, with `ZeroAmount` when the amount is `0`, with
`AccountNotRegistered` when either party is unregistered, and with
`InsufficientBalance` when the sender balance is below the amount (the
failing operation returns no state, which embeds "the ledger state is
unchanged": a NEAR panic reverts the transaction); when none of these hold,
it decrements the sender balance and increments the receiver balance by
exactly `amount` and leaves the total supply unchanged.  The registered
cases carry the reachable-state invariant `wf`. -/
theorem C2_transfer (t : FungibleToken) (s r : AccountId) (amount : Nat)
    (memo : Option String) :
    (s = r → internal_transfer t s r amount memo = .error .SelfTransfer) ∧
    (s ≠ r → amount = 0 →
      internal_transfer t s r amount memo = .error .ZeroAmount) ∧
    (s ≠ r → amount ≠ 0 → lookupAcc t.accounts s = none →
      internal_transfer t s r amount memo = .error .AccountNotRegistered) ∧
    (∀ bs, s ≠ r → amount ≠ 0 → lookupAcc t.accounts s = some bs →
      bs < amount →
      internal_transfer t s r amount memo = .error .InsufficientBalance) ∧
    (∀ bs, wf t → s ≠ r → amount ≠ 0 → lookupAcc t.accounts s = some bs →
      amount ≤ bs → lookupAcc t.accounts r = none →
      internal_transfer t s r amount memo = .error .AccountNotRegistered) ∧
    (∀ bs br, wf t → s ≠ r → amount ≠ 0 →
      lookupAcc t.accounts s = some bs → amount ≤ bs →
      lookupAcc t.accounts r = some br →
      ∃ t1, internal_transfer t s r amount memo = .ok t1 ∧
        lookupAcc t1.accounts s = some (bs - amount) ∧
        lookupAcc t1.accounts r = some (br + amount) ∧
        ft_total_supply t1 = ft_total_supply t) := by
  refine ⟨?_, ?_, ?_, ?_, ?_, ?_⟩
  · intro h
    unfold internal_transfer
    rw [if_pos h]
  · intro h1 h2
    unfold internal_transfer
    rw [if_neg h1, if_pos h2]
  · intro h1 h2 h3
    unfold internal_transfer
    rw [if_neg h1, if_neg h2, internal_withdraw_not_registered amount h3]
  · intro bs h1 h2 h3 h4
    unfold internal_transfer
    rw [if_neg h1, if_neg h2, internal_withdraw_insufficient h3 h4]
  · intro bs hwf h1 h2 h3 h4 h5
    obtain ⟨hc, hb⟩ := hwf
    have hbs := lookupAcc_le_sum h3
    have htot : amount ≤ t.total_supply := by
      simp only [sumBalances] at hc
      omega
    unfold internal_transfer
    rw [if_neg h1, if_neg h2, internal_withdraw_ok h3 h4 htot]
    exact internal_deposit_not_registered amount
      (by rw [lookupAcc_setAcc_ne _ h1]; exact h5)
  · intro bs br hwf h1 h2 h3 h4 h5
    obtain ⟨hc, hb⟩ := hwf
    have hpair := pair_le_sum h1 h3 h5
    simp only [sumBalances] at hc
    have htot : amount ≤ t.total_supply := by omega
    unfold internal_transfer
    rw [if_neg h1, if_neg h2, internal_withdraw_ok h3 h4 htot]
    have hr1 : lookupAcc (setAcc t.accounts s (bs - amount)) r = some br := by
      rw [lookupAcc_setAcc_ne _ h1]
      exact h5
    have hdep := @internal_deposit_ok
      { accounts := setAcc t.accounts s (bs - amount),
        total_supply := t.total_supply - amount } r amount br
      hr1 (by omega) (by simp only []; omega)
    refine ⟨_, hdep, ?_, ?_, ?_⟩
    · show lookupAcc (setAcc (setAcc t.accounts s (bs - amount)) r
          (br + amount)) s = some (bs - amount)
      rw [lookupAcc_setAcc_ne _ (Ne.symm h1), lookupAcc_setAcc_self _ h3]
    · show lookupAcc (setAcc (setAcc t.accounts s (bs - amount)) r
          (br + amount)) r = some (br + amount)
      rw [lookupAcc_setAcc_self _ hr1]
    · show t.total_supply - amount + amount = t.total_supply
      omega

theorem C2_transfer_witness :
    internal_transfer { accounts := [("a", 10), ("b", 5)], total_supply := 15 }
        "a" "a" 4 none = .error .SelfTransfer ∧
    ∃ t1, internal_transfer
        { accounts := [("a", 10), ("b", 5)], total_supply := 15 }
        "a" "b" 4 none = .ok t1 ∧
      lookupAcc t1.accounts "a" = some 6 ∧
      lookupAcc t1.accounts "b" = some 9 ∧
      ft_total_supply t1 = ft_total_supply
        { accounts := [("a", 10), ("b", 5)], total_supply := 15 } :=
  ⟨(C2_transfer { accounts := [("a", 10), ("b", 5)], total_supply := 15 }
      "a" "a" 4 none).1 rfl,
   (C2_transfer { accounts := [("a", 10), ("b", 5)], total_supply := 15 }
      "a" "b" 4 none).2.2.2.2.2 10 5 ⟨by decide, by decide⟩ (by decide)
      (by decide) (by decide) (by decide) (by decide)⟩

/-- C10: before initialization every public operation fails: the
`PanicOnDefault` derive makes the default state construction panic with
"The contract is not initialized", so the entry-point dispatch can never
reach a method body on an uninitialized ledger. -/
theorem C10_panic_on_default :
    Contract.defaultState = .error "The contract is not initialized" ∧
    ∀ f : Contract → Contract,
      dispatch none f = .error "The contract is not initialized" :=
  ⟨rfl, fun _ => rfl⟩

/-- The minimum storage bound is positive. -/
theorem min_bound_pos : 0 < min_bound := by decide

/-- C4: registering an unregistered account with attached value exactly
`min_bound` succeeds and refunds zero; with `min_bound - 1` it fails with
`InsufficientStorageDeposit`, refunds the full attached value and leaves
the registry unchanged; with `min_bound + k` (`k > 0`) it succeeds and
refunds exactly `k`. -/
theorem C4_storage_deposit_bounds (t : FungibleToken) (a : AccountId)
    (k : Nat) (h : lookupAcc t.accounts a = none) :
    storage_deposit t a min_bound
      = ({ t with accounts := (a, 0) :: t.accounts }, 0,
         .ok { total := min_bound, available := 0 }) ∧
    storage_deposit t a (min_bound - 1)
      = (t, min_bound - 1, .error .InsufficientStorageDeposit) ∧
    (0 < k → storage_deposit t a (min_bound + k)
      = ({ t with accounts := (a, 0) :: t.accounts }, k,
         .ok { total := min_bound, available := 0 })) := by
  refine ⟨?_, ?_, ?_⟩
  · unfold storage_deposit
    rw [h]
    simp only [if_neg (lt_irrefl min_bound), Nat.sub_self]
  · unfold storage_deposit
    rw [h]
    simp only [if_pos (Nat.sub_lt min_bound_pos Nat.one_pos)]
  · intro hk
    unfold storage_deposit
    rw [h]
    simp only [if_neg (by omega : ¬ min_bound + k < min_bound),
      Nat.add_sub_cancel_left]

theorem C4_storage_deposit_bounds_witness :
    storage_deposit { accounts := [], total_supply := 0 } "a" min_bound
      = ({ accounts := [("a", 0)], total_supply := 0 }, 0,
         .ok { total := min_bound, available := 0 }) ∧
    storage_deposit { accounts := [], total_supply := 0 } "a" (min_bound - 1)
      = ({ accounts := [], total_supply := 0 }, min_bound - 1,
         .error .InsufficientStorageDeposit) ∧
    storage_deposit { accounts := [], total_supply := 0 } "a" (min_bound + 7)
      = ({ accounts := [("a", 0)], total_supply := 0 }, 7,
         .ok { total := min_bound, available := 0 }) :=
  ⟨(C4_storage_deposit_bounds { accounts := [], total_supply := 0 } "a" 7
      rfl).1,
   (C4_storage_deposit_bounds { accounts := [], total_supply := 0 } "a" 7
      rfl).2.1,
   (C4_storage_deposit_bounds { accounts := [], total_supply := 0 } "a" 7
      rfl).2.2 (by decide)⟩

/-- C5: `storage_unregister` of an absent account fails with
`AccountNotRegistered`; with `force = false` on a nonzero-balance account it
fails with `NonZeroBalance` leaving the state unchanged; with `force = true`
it burns the balance (under the reachable-state invariant `wf` the total
supply decreases by exactly the balance), removes the entry and refunds the
stake `min_bound`; the successful result carries `true` (removal
happened). -/
theorem C5_storage_unregister (t : FungibleToken) (a : AccountId) :
    (∀ force, lookupAcc t.accounts a = none →
      storage_unregister t a force = (t, 0, .error .AccountNotRegistered)) ∧
    (∀ b, lookupAcc t.accounts a = some b → b ≠ 0 →
      storage_unregister t a false = (t, 0, .error .NonZeroBalance)) ∧
    (∀ b, lookupAcc t.accounts a = some b →
      storage_unregister t a true
        = ({ accounts := removeAcc t.accounts a,
             total_supply := t.total_supply - b }, min_bound, .ok true)) ∧
    (∀ b, wf t → lookupAcc t.accounts a = some b →
      (storage_unregister t a true).1.total_supply + b = t.total_supply) := by
  refine ⟨?_, ?_, ?_, ?_⟩
  · intro force h
    unfold storage_unregister
    rw [h]
  · intro b h hb
    unfold storage_unregister
    simp only [h]
    rw [if_pos ⟨hb, trivial⟩]
  · intro b h
    unfold storage_unregister
    simp only [h]
    rw [if_neg (fun hcon => absurd hcon.2 (by decide))]
  · intro b hwf h
    obtain ⟨hc, hb⟩ := hwf
    have h1 := lookupAcc_le_sum h
    unfold storage_unregister
    simp only [h]
    rw [if_neg (fun hcon => absurd hcon.2 (by decide))]
    show t.total_supply - b + b = t.total_supply
    simp only [sumBalances] at hc
    omega

theorem C5_storage_unregister_witness :
    storage_unregister { accounts := [("a", 4)], total_supply := 4 } "b" false
      = ({ accounts := [("a", 4)], total_supply := 4 }, 0,
         .error .AccountNotRegistered) ∧
    storage_unregister { accounts := [("a", 4)], total_supply := 4 } "a" false
      = ({ accounts := [("a", 4)], total_supply := 4 }, 0,
         .error .NonZeroBalance) ∧
    storage_unregister { accounts := [("a", 4)], total_supply := 4 } "a" true
      = ({ accounts := [], total_supply := 0 }, min_bound, .ok true) ∧
    (storage_unregister { accounts := [("a", 4)], total_supply := 4 }
        "a" true).1.total_supply + 4 = 4 :=
  ⟨(C5_storage_unregister { accounts := [("a", 4)], total_supply := 4 }
      "b").1 false rfl,
   (C5_storage_unregister { accounts := [("a", 4)], total_supply := 4 }
      "a").2.1 4 rfl (by decide),
   (C5_storage_unregister { accounts := [("a", 4)], total_supply := 4 }
      "a").2.2.1 4 rfl,
   (C5_storage_unregister { accounts := [("a", 4)], total_supply := 4 }
      "a").2.2.2 4 ⟨by decide, by decide⟩ rfl⟩

/-- C7: registration is idempotent-safe: registering an already registered
account with any attached value refunds the whole attached value, returns
the current stake record (always `{min_bound, 0}`, the stake being pinned
to the minimum), and leaves the state identical. -/
theorem C7_register_idempotent (t : FungibleToken) (a : AccountId)
    (attached b : Nat) (h : lookupAcc t.accounts a = some b) :
    storage_deposit t a attached
      = (t, attached, .ok { total := min_bound, available := 0 }) := by
  unfold storage_deposit
  rw [h]

theorem C7_register_idempotent_witness :
    storage_deposit { accounts := [("a", 4)], total_supply := 4 } "a" 123
      = ({ accounts := [("a", 4)], total_supply := 4 }, 123,
         .ok { total := min_bound, available := 0 }) :=
  C7_register_idempotent { accounts := [("a", 4)], total_supply := 4 }
    "a" 123 4 rfl

/-- C8: the stake being pinned to the minimum bound, the available stake of
every registered account is zero, `storage_withdraw` of any positive amount
fails with `InsufficientAvailableBalance`, and no call to
`storage_withdraw` ever pays out a nonzero amount. -/
theorem C8_storage_withdraw_always_fails (t : FungibleToken)
    (a : AccountId) :
    (∀ b, lookupAcc t.accounts a = some b →
      storage_balance_of t a = some { total := min_bound, available := 0 }) ∧
    (∀ b amount, lookupAcc t.accounts a = some b → 0 < amount →
      storage_withdraw t a (some amount)
        = (t, 0, .error .InsufficientAvailableBalance)) ∧
    (∀ request t1 pay res,
      storage_withdraw t a request = (t1, pay, res) → pay = 0) := by
  refine ⟨?_, ?_, ?_⟩
  · intro b h
    unfold storage_balance_of
    rw [h]
  · intro b amount h hpos
    unfold storage_withdraw
    rw [h]
    simp only [if_pos hpos]
  · intro request t1 pay res h
    exact (storage_withdraw_state h).2

theorem C8_storage_withdraw_always_fails_witness :
    storage_balance_of { accounts := [("a", 4)], total_supply := 4 } "a"
      = some { total := min_bound, available := 0 } ∧
    storage_withdraw { accounts := [("a", 4)], total_supply := 4 } "a"
        (some 1)
      = ({ accounts := [("a", 4)], total_supply := 4 }, 0,
         .error .InsufficientAvailableBalance) ∧
    (0 : Nat) = 0 :=
  ⟨(C8_storage_withdraw_always_fails
      { accounts := [("a", 4)], total_supply := 4 } "a").1 4 rfl,
   (C8_storage_withdraw_always_fails
      { accounts := [("a", 4)], total_supply := 4 } "a").2.1 4 1 rfl
      (by decide),
   (C8_storage_withdraw_always_fails
      { accounts := [("a", 4)], total_supply := 4 } "a").2.2 none
      { accounts := [("a", 4)], total_supply := 4 } 0
      (.ok { total := min_bound, available := 0 }) rfl⟩

/-- C6: arithmetic on balances and on the total supply is checked: a
deposit that would push a balance or the total supply past `2 ^ 128 - 1`
fails with `Overflow`, a withdrawal below zero fails with
`InsufficientBalance` (failing operations return no state, so the ledger is
unchanged); consequently on every state reachable by a sequence of
successful operations from initialization, every balance lies within
`[0, 2 ^ 128 - 1]`. -/
theorem C6_checked_arithmetic :
    (∀ t a amount b, lookupAcc t.accounts a = some b →
      U128_MAX < b + amount ∨ U128_MAX < t.total_supply + amount →
      internal_deposit t a amount = .error .Overflow) ∧
    (∀ t a amount b, lookupAcc t.accounts a = some b → b < amount →
      internal_withdraw t a amount = .error .InsufficientBalance) ∧
    (∀ stateExists owner supply md c ops t a b,
      Contract.new stateExists owner supply md = .ok c →
      runOps c.token ops = .ok t →
      lookupAcc t.accounts a = some b → b ≤ U128_MAX) := by
  refine ⟨?_, ?_, ?_⟩
  · intro t a amount b h hor
    unfold internal_deposit
    simp only [h]
    by_cases h1 : U128_MAX < b + amount
    · rw [if_pos h1]
    · rw [if_neg h1, if_pos (hor.resolve_left h1)]
  · intro t a amount b h hlt
    exact internal_withdraw_insufficient h hlt
  · intro stateExists owner supply md c ops t a b hnew hrun hl
    obtain ⟨hc, hb⟩ := wf_runOps (wf_contract_new hnew) hrun
    have hle := lookupAcc_le_sum hl
    simp only [sumBalances] at hc
    omega

theorem C6_checked_arithmetic_witness :
    internal_deposit { accounts := [("a", U128_MAX)],
                       total_supply := U128_MAX } "a" 1 = .error .Overflow ∧
    internal_withdraw { accounts := [("a", 5)], total_supply := 5 } "a" 6
      = .error .InsufficientBalance ∧
    (1000 : Nat) ≤ U128_MAX :=
  ⟨C6_checked_arithmetic.1 { accounts := [("a", U128_MAX)],
                             total_supply := U128_MAX }
      "a" 1 U128_MAX rfl (Or.inl (by decide)),
   C6_checked_arithmetic.2.1 { accounts := [("a", 5)], total_supply := 5 }
      "a" 6 5 rfl (by decide),
   C6_checked_arithmetic.2.2 false "alice" 1000 mdOK
      { token := { accounts := [("alice", 1000)], total_supply := 1000 },
        metadata := mdOK } [] _ "alice" 1000 rfl rfl rfl⟩

/-- C9: initialization (`new`, lines 60-76) fails with `AlreadyInitialized`
when contract state already exists, and with `InvalidMetadata` exactly when
the metadata is invalid (spec string absent, empty name or symbol, or
exactly one of reference and reference hash present); on success the owner
is the single registered account and holds the whole initial supply, so
`ft_total_supply` and `ft_balance_of owner` both equal the initial
supply. -/
theorem C9_init (stateExists : Bool) (owner : AccountId) (supply : Nat)
    (md : FungibleTokenMetadata) :
    (stateExists = true →
      Contract.new stateExists owner supply md = .error .AlreadyInitialized) ∧
    (metadataValid md = false ↔
      (md.spec = "" ∨ md.name = "" ∨ md.symbol = "" ∨
        md.reference.isSome ≠ md.reference_hash.isSome)) ∧
    (stateExists = false → metadataValid md = false →
      Contract.new stateExists owner supply md = .error .InvalidMetadata) ∧
    (stateExists = false → metadataValid md = true → supply ≤ U128_MAX →
      ∃ c, Contract.new stateExists owner supply md = .ok c ∧
        c.token.accounts = [(owner, supply)] ∧
        ft_total_supply c.token = supply ∧
        ft_balance_of c.token owner = supply) := by
  refine ⟨?_, ?_, ?_, ?_⟩
  · intro h
    subst h
    unfold Contract.new
    rw [if_pos rfl]
  · have hval : metadataValid md = true ↔
        (md.spec ≠ "" ∧ md.name ≠ "" ∧ md.symbol ≠ "" ∧
          md.reference.isSome = md.reference_hash.isSome) := by
      simp [metadataValid, and_assoc]
    constructor
    · intro h
      by_contra hcon
      push_neg at hcon
      obtain ⟨n1, n2, n3, n4⟩ := hcon
      have hv := hval.mpr ⟨n1, n2, n3, n4⟩
      rw [hv] at h
      exact Bool.noConfusion h
    · intro h
      cases hval2 : metadataValid md with
      | false => rfl
      | true =>
        exfalso
        obtain ⟨p1, p2, p3, p4⟩ := hval.mp hval2
        rcases h with h | h | h | h
        · exact p1 h
        · exact p2 h
        · exact p3 h
        · exact h p4
  · intro h1 h2
    subst h1
    unfold Contract.new
    rw [if_neg (by decide), if_pos h2]
  · intro h1 h2 h3
    subst h1
    have hl : lookupAcc [(owner, 0)] owner = some 0 := by
      simp [lookupAcc]
    have hdep := @internal_deposit_ok
      { accounts := [(owner, 0)], total_supply := 0 } owner supply 0
      hl (by omega) (by simp only []; omega)
    have hacc : setAcc [(owner, 0)] owner (0 + supply) = [(owner, supply)] := by
      simp [setAcc]
    rw [hacc] at hdep
    refine ⟨{ token := { accounts := [(owner, supply)],
                         total_supply := 0 + supply },
              metadata := md }, ?_, rfl, ?_, ?_⟩
    · unfold Contract.new
      rw [if_neg (by decide), if_neg (by simp [h2]), hdep]
    · show 0 + supply = supply
      omega
    · show (lookupAcc [(owner, supply)] owner).getD 0 = supply
      simp [lookupAcc]

theorem C9_init_witness :
    Contract.new true "o" 5 mdOK = .error .AlreadyInitialized ∧
    Contract.new false "o" 5
        { mdOK with name := "" } = .error .InvalidMetadata ∧
    ∃ c, Contract.new false "o" 5 mdOK = .ok c ∧
      c.token.accounts = [("o", 5)] ∧
      ft_total_supply c.token = 5 ∧
      ft_balance_of c.token "o" = 5 :=
  ⟨(C9_init true "o" 5 mdOK).1 rfl,
   (C9_init false "o" 5 { mdOK with name := "" }).2.2.1 rfl (by decide),
   (C9_init false "o" 5 mdOK).2.2.2 rfl (by decide) (by decide)⟩

/-- C3: in transfer-with-notify resolution a failed hook is treated exactly
like a report of the full amount unused; for a registered sender and
receiver the reversal re-debits the receiver and re-credits the sender by
exactly `min u (receiver balance)` while the amount reported to the caller
is `amount - u` and the total supply is unchanged (the resolution is a
total function, so the reversal step itself never fails, the clawback being
capped at the receiver balance); and a full rejection resolved directly
after the optimistic transfer restores exactly the pre-transfer state and
reports `0` transferred. -/
theorem ft_resolve_transfer_none (t : FungibleToken) (s r : AccountId)
    (amount : Nat) :
    ft_resolve_transfer t s r amount none = resolveCore t s r amount amount :=
  rfl

theorem ft_resolve_transfer_some (t : FungibleToken) (s r : AccountId)
    (amount u : Nat) :
    ft_resolve_transfer t s r amount (some u)
      = resolveCore t s r amount (min amount u) :=
  rfl

theorem resolveCore_spec {t : FungibleToken} {s r : AccountId} {sb rb : Nat}
    (hne : s ≠ r) (hs : lookupAcc t.accounts s = some sb)
    (hr : lookupAcc t.accounts r = some rb) (amount unused : Nat) :
    resolveCore t s r amount unused
      = ({ accounts := setAcc (setAcc t.accounts r (rb - min unused rb)) s
             (sb + min unused rb),
           total_supply := t.total_supply }, amount - unused) := by
  have hs1 : lookupAcc (setAcc t.accounts r (rb - min unused rb)) s
      = some sb := by
    rw [lookupAcc_setAcc_ne _ (Ne.symm hne)]
    exact hs
  unfold resolveCore
  by_cases h0 : unused = 0
  · subst h0
    rw [if_pos rfl]
    have e1 : min 0 rb = 0 := Nat.zero_min rb
    rw [e1, Nat.sub_zero, Nat.add_zero, Nat.sub_zero,
      setAcc_of_lookup_self hr, setAcc_of_lookup_self hs]
  · rw [if_neg h0]
    simp only [hr, hs1]

/-- C3: in transfer-with-notify resolution a failed hook is treated exactly
like a report of the full amount unused; for a registered sender and
receiver the reversal re-debits the receiver and re-credits the sender by
exactly `min u (receiver balance)` while the amount reported to the caller
is `amount - u` and the total supply is unchanged (the resolution is a
total function, so the reversal step itself never fails, the clawback being
capped at the receiver balance); and a full rejection resolved directly
after the optimistic transfer restores exactly the pre-transfer state and
reports `0` transferred. -/
theorem C3_notify_resolution (t : FungibleToken) (s r : AccountId)
    (amount : Nat) :
    (ft_resolve_transfer t s r amount none
      = ft_resolve_transfer t s r amount (some amount)) ∧
    (∀ u sb rb, u ≤ amount → s ≠ r →
      lookupAcc t.accounts s = some sb →
      lookupAcc t.accounts r = some rb →
      (ft_resolve_transfer t s r amount (some u)).2 = amount - u ∧
      lookupAcc (ft_resolve_transfer t s r amount (some u)).1.accounts r
        = some (rb - min u rb) ∧
      lookupAcc (ft_resolve_transfer t s r amount (some u)).1.accounts s
        = some (sb + min u rb) ∧
      (ft_resolve_transfer t s r amount (some u)).1.total_supply
        = t.total_supply) ∧
    (∀ memo t1, internal_transfer t s r amount memo = .ok t1 →
      ft_resolve_transfer t1 s r amount none = (t, 0)) := by
  refine ⟨?_, ?_, ?_⟩
  · rw [ft_resolve_transfer_none, ft_resolve_transfer_some, Nat.min_self]
  · intro u sb rb hu hne hs hr
    have hs1 : lookupAcc (setAcc t.accounts r (rb - min u rb)) s
        = some sb := by
      rw [lookupAcc_setAcc_ne _ (Ne.symm hne)]
      exact hs
    rw [ft_resolve_transfer_some, Nat.min_eq_right hu,
      resolveCore_spec hne hs hr amount u]
    refine ⟨rfl, ?_, ?_, rfl⟩
    · show lookupAcc (setAcc (setAcc t.accounts r (rb - min u rb)) s
          (sb + min u rb)) r = some (rb - min u rb)
      rw [lookupAcc_setAcc_ne _ hne]
      exact lookupAcc_setAcc_self _ hr
    · show lookupAcc (setAcc (setAcc t.accounts r (rb - min u rb)) s
          (sb + min u rb)) s = some (sb + min u rb)
      exact lookupAcc_setAcc_self _ hs1
  · intro memo t1 h
    obtain ⟨bs, br, hne, hA0, hs, hbs, hr, htot, hmax, hacc, htots⟩ :=
      internal_transfer_inv h
    have hs2 : lookupAcc t1.accounts s = some (bs - amount) := by
      rw [hacc, lookupAcc_setAcc_ne _ (Ne.symm hne)]
      exact lookupAcc_setAcc_self _ hs
    have hr2 : lookupAcc t1.accounts r = some (br + amount) := by
      rw [hacc]
      exact lookupAcc_setAcc_self _ (by
        rw [lookupAcc_setAcc_ne _ hne]
        exact hr)
    rw [ft_resolve_transfer_none, resolveCore_spec hne hs2 hr2 amount amount,
      Nat.min_eq_left (Nat.le_add_left amount br), Nat.add_sub_cancel,
      Nat.sub_add_cancel hbs, Nat.sub_self, hacc, setAcc_setAcc_same,
      setAcc_comm _ _ _ (Ne.symm hne), setAcc_setAcc_same,
      setAcc_of_lookup_self hs, setAcc_of_lookup_self hr, htots]

theorem C3_notify_resolution_witness :
    ft_resolve_transfer { accounts := [("a", 2), ("b", 8)],
                          total_supply := 10 } "a" "b" 3 none
      = ({ accounts := [("a", 5), ("b", 5)], total_supply := 10 }, 0) :=
  (C3_notify_resolution { accounts := [("a", 5), ("b", 5)],
                          total_supply := 10 } "a" "b" 3).2.2 none
    { accounts := [("a", 2), ("b", 8)], total_supply := 10 } rfl

end PotatoToken
